import Mathlib

/-!
Shallow embedding of the Interlocking and Dispatch Control Engine of the
Group4-ECE1140 repository (files Track_and_Train/Track_Model/TrackControl.py
and Track_and_Train/LineNetwork.py), together with theorems settling the
frozen claims about it.  Python floats are modelled as rationals, Python
ints as integers, dictionaries with fixed key sets as structures, and the
fallible JSON reads as Option values.
-/

/-- Python style int() truncation toward zero of a rational. -/
def pyInt (q : ℚ) : ℤ :=
  if q < 0 then -⌊-q⌋ else ⌊q⌋

/-- Python style list indexing: a negative index counts from the end of the
list; an index out of range gives no value (an IndexError in the source). -/
def pyGet (l : List ℤ) (i : ℤ) : Option ℤ :=
  if 0 ≤ i then l.get? i.toNat
  else if 0 ≤ i + l.length then l.get? (i + (l.length : ℤ)).toNat
  else none

/-- One record of the static track description table
(track_model_static.json): the Block Number field and the
Block Length (m) field, the only two fields the control code reads. -/
structure BlockInfo where
  blockNumber : ℤ
  blockLength : ℚ
deriving DecidableEq, Repr

/-- Block length lookup as the source performs it: scan the per line static
list for the first record whose Block Number matches and take its length;
a block that has no record contributes length 0 (the inner for loop of the
source simply finds nothing and adds nothing). -/
def lookupBlockLength (lineData : List BlockInfo) (b : ℤ) : ℚ :=
  match lineData.find? (fun bi => bi.blockNumber == b) with
  | some bi => bi.blockLength
  | none => 0

/-- Sum of the looked up block lengths (meters) over a list of block
numbers, as the authority loops of TrackControl.py accumulate it. -/
def sumLens (lineData : List BlockInfo) (blocks : List ℤ) : ℚ :=
  (blocks.map (lookupBlockLength lineData)).sum

/-- Meters to yards factor 1.09361 used throughout TrackControl.py. -/
def M_TO_YD : ℚ := 109361 / 100000

/-- Dwell time constant DWELL_TIME = 10 seconds (TrackControl.__init__). -/
def DWELL_TIME : ℚ := 10

/-- Gate close distance GATE_CLOSE_DISTANCE = 5 blocks. -/
def GATE_CLOSE_DISTANCE : ℤ := 5

/-- Gate open delay GATE_OPEN_DELAY = 3 seconds. -/
def GATE_OPEN_DELAY : ℚ := 3

/-- Light distance thresholds LIGHT_DISTANCE_RED / YELLOW / GREEN. -/
def LIGHT_DISTANCE_RED : ℤ := 1

/-- Threshold LIGHT_DISTANCE_YELLOW = 3 blocks. -/
def LIGHT_DISTANCE_YELLOW : ℤ := 3

/-- Threshold LIGHT_DISTANCE_GREEN = 5 blocks. -/
def LIGHT_DISTANCE_GREEN : ℤ := 5

/-- The mutable per train record held in TrackControl.active_trains.
Fields mirror the dictionary keys the source creates and reads; the
scheduled_speed key is absent until the dispatch handler first sets it,
so it is an Option read through a default of 30 as the source does with
dict.get. -/
structure TrainInfo where
  line : String
  state : String
  current_block : ℤ
  expected_path : List ℤ
  commanded_speed : ℚ
  commanded_authority : ℚ
  scheduled_speed : Option ℚ
  separation_stopped : Bool
  failure_stopped : Bool
  route : List ℤ
  current_leg_index : ℕ
  destination : String
  next_station_block : ℤ
  current_station : String
  arrival_time : String
  dwell_start_time : Option ℚ
  last_position_yds : ℚ
deriving DecidableEq, Repr

/-- Occupancy test of _check_train_separation: the source evaluates
check_block - 1 < len(occupancy) and occupancy[check_block - 1] == 1,
with Python negative index semantics. -/
def sepOccupied (occ : List ℤ) (b : ℤ) : Bool :=
  decide (b - 1 < (occ.length : ℤ)) && (pyGet occ (b - 1) == some 1)

/-- Test whether some other registered train of the same line records
check_block as its current block, as the inner loop of
_check_train_separation over self.active_trains.items() does. -/
def otherTrainAt (activeTrains : List (ℕ × TrainInfo)) (selfId : ℕ)
    (line : String) (b : ℤ) : Bool :=
  activeTrains.any (fun p =>
    p.1 != selfId && p.2.line == line && p.2.current_block == b)

/-- The blocks_to_check slice of _check_train_separation:
expected_path[current_idx + 1 : current_idx + 3], empty when the guard at
the top of the method fails. -/
def sepBlocksToCheck (info : TrainInfo) : List ℤ :=
  if info.expected_path = [] ∨ info.current_block ∉ info.expected_path then []
  else
    (info.expected_path.drop
      (((info.expected_path.findIdx? (· == info.current_block)).getD 0) + 1)).take 2

/-- The resume tail of _check_train_separation (the code after the loop):
a train previously held for separation drops the flag; if it is En Route
its commanded speed is restored to the scheduled speed and, when the route
has a current leg, its authority is recomputed along
_calculate_complete_block_path from the current block to the next station
(summing from the index of the current block through the end of the path),
with a 500 yard fallback when the static table or the path is
unavailable. -/
def sepResumeUpdate (info : TrainInfo) (staticData : Option (List BlockInfo))
    (calcPath : ℤ → ℤ → List ℤ) : TrainInfo :=
  if info.separation_stopped then
    let info1 := { info with separation_stopped := false }
    if info.state = "En Route" then
      let info2 := { info1 with commanded_speed := info.scheduled_speed.getD 30 }
      if info.route ≠ [] ∧ info.current_leg_index < info.route.length then
        let nextStation := info.route.getD info.current_leg_index 0
        let completePath := calcPath info.current_block nextStation
        match staticData with
        | some lineData =>
          if completePath ≠ [] then
            let idx := (completePath.findIdx? (· == info.current_block)).getD 0
            let meters := sumLens lineData (completePath.drop idx)
            { info2 with
              commanded_authority := ((pyInt (meters * M_TO_YD) : ℤ) : ℚ) }
          else { info2 with commanded_authority := 500 }
        | none => { info2 with commanded_authority := 500 }
      else info2
    else info1
  else info

/-- TrackControl._check_train_separation translated one branch at a time.
The registry self.active_trains is passed as an ordered association list,
self._read_static_data() as an optional static table, and the method
self._calculate_complete_block_path as a function argument.  The result
is the updated train record and the returned Boolean (True when the train
is held for separation).  The loop over blocks_to_check stops the train at
the first checked block that is both occupied and held by another
registered train of the line; otherwise the resume tail runs. -/
def checkTrainSeparation (selfId : ℕ) (info : TrainInfo) (line : String)
    (occ : List ℤ) (activeTrains : List (ℕ × TrainInfo))
    (staticData : Option (List BlockInfo))
    (calcPath : ℤ → ℤ → List ℤ) : TrainInfo × Bool :=
  if info.expected_path = [] ∨ info.current_block ∉ info.expected_path then
    (info, false)
  else
    match (sepBlocksToCheck info).find? (fun b =>
        sepOccupied occ b && otherTrainAt activeTrains selfId line b) with
    | some _ =>
      if info.separation_stopped then (info, true)
      else ({ info with commanded_speed := 0, commanded_authority := 0,
                        separation_stopped := true }, true)
    | none => (sepResumeUpdate info staticData calcPath, false)

/-- The authority computation of _handle_dispatching_state (the block that
starts from authority = 200.0 for the yard): refuse (None) exactly when
the static table is unavailable or the expanded path is empty, otherwise
200 yards for the yard, plus the meter sum over complete_path[1:-1]
converted to yards, plus the 10 yard buffer, truncated by int() at the
assignment to commanded_authority. -/
def dispatchAuthority (staticData : Option (List BlockInfo))
    (completePath : List ℤ) : Option ℤ :=
  match staticData with
  | none => none
  | some lineData =>
    if completePath = [] then none
    else
      let interior := (completePath.drop 1).dropLast
      let meters := sumLens lineData interior
      some (pyInt (200 + (meters * M_TO_YD + 10)))

/-- The authority computation of the dwell complete branch of
_handle_dwelling_state: refuse (None) when the static table is
unavailable or the path empty; otherwise 200 yards only when the current
block is the yard block 0, plus int() of the yard converted meter sum over
complete_path from the index of the current block (inclusive) through the
end of the path, the leg destination included. -/
def dwellResumeAuthority (staticData : Option (List BlockInfo))
    (completePath : List ℤ) (currentBlock : ℤ) : Option ℚ :=
  match staticData with
  | none => none
  | some lineData =>
    if completePath = [] then none
    else
      let base : ℚ := if currentBlock = 0 then 200 else 0
      let idx := (completePath.findIdx? (· == currentBlock)).getD 0
      let meters := sumLens lineData (completePath.drop idx)
      some (base + ((pyInt (meters * M_TO_YD) : ℤ) : ℚ))

/-- The update _manual_dispatch applies to an already registered train
(the else branch of the train_id membership test): every leg scoped field
is reseeded, current_station and current_leg_index are left untouched
(their assignment lines are commented out in the source), and
current_block is assigned 0. -/
def redispatchUpdate (old : TrainInfo) (line dest arrival : String)
    (route : List ℤ) : TrainInfo :=
  { old with
    line := line,
    destination := dest,
    current_block := 0,
    commanded_speed := 0,
    commanded_authority := 0,
    state := "Dispatching",
    arrival_time := arrival,
    route := route,
    next_station_block := route.headD 0,
    dwell_start_time := none,
    last_position_yds := 0 }

/-- One step of TrackControl._control_crossing_gates for a single gate
block: from the trains of the line, the stored gate timer for this gate,
the current time (seconds) and the current gate value, produce the new
gate value (0 = closed, 1 = open) and the new timer.  A train on the gate
block, or one whose absolute block distance is at most
GATE_CLOSE_DISTANCE, closes the gate; the timer is created only when no
timer is stored, so it holds the time of the first qualifying presence of
the episode and is not refreshed while trains remain. -/
def controlCrossingGate (trains : List TrainInfo) (line : String)
    (gateBlock : ℤ) (timer : Option ℚ) (now : ℚ) (oldGate : ℤ) :
    ℤ × Option ℚ :=
  let trainAt := trains.any (fun t =>
    t.line == line && t.current_block == gateBlock)
  let trainApproaching := trains.any (fun t =>
    t.line == line && t.current_block != gateBlock &&
      decide (|gateBlock - t.current_block| ≤ GATE_CLOSE_DISTANCE))
  if trainAt || trainApproaching then
    (0, some (timer.getD now))
  else
    match timer with
    | some t0 =>
      if GATE_OPEN_DELAY ≤ now - t0 then (1, none) else (oldGate, some t0)
    | none => (1, none)

/-- Iterate controlCrossingGate over a timed trace: each entry carries the
tick time and the train list observed on that tick. -/
def gateRun (line : String) (gateBlock : ℤ)
    (steps : List (ℚ × List TrainInfo)) (init : ℤ × Option ℚ) :
    ℤ × Option ℚ :=
  steps.foldl
    (fun st step => controlCrossingGate step.2 line gateBlock st.2 step.1 st.1)
    init

/-- The four light states with their two bit encoding of
_control_traffic_lights: 00 Super Green, 01 Green, 10 Yellow, 11 Red. -/
inductive LightState
  | superGreen
  | green
  | yellow
  | red
deriving DecidableEq, Repr

/-- Two bit encoding written into the lights array. -/
def lightBits : LightState → List ℤ
  | .superGreen => [0, 0]
  | .green => [0, 1]
  | .yellow => [1, 0]
  | .red => [1, 1]

/-- One step of the closest train search of _control_traffic_lights: a
same line train at or beyond the light (distance current_block minus
light_block at least 0) replaces the running minimum when strictly
closer; None plays the role of the initial infinity. -/
def minAheadStep (line : String) (lightBlock : ℤ) (acc : Option ℤ)
    (t : TrainInfo) : Option ℤ :=
  if t.line == line then
    let d := t.current_block - lightBlock
    if 0 ≤ d then
      match acc with
      | none => some d
      | some m => if d < m then some d else acc
    else acc
  else acc

/-- The closest train search of _control_traffic_lights over all trains;
the result is None exactly when no train of the line sits at or beyond
the light. -/
def minAheadDistance (trains : List TrainInfo) (line : String)
    (lightBlock : ℤ) : Option ℤ :=
  trains.foldl (minAheadStep line lightBlock) none

/-- The fallback occupancy count of _control_traffic_lights: occupied
entries of the occupancy array at indices light_block + 1 up to but
excluding min(light_block + 4, len(occupancy)). -/
def countOccupiedAhead (occ : List ℤ) (lightBlock : ℤ) : ℕ :=
  let lo := lightBlock + 1
  let ub := min (lightBlock + 4) (occ.length : ℤ)
  if lo < ub then
    ((List.range (ub - lo).toNat).map (fun k => lo + (k : ℤ))).countP
      (fun k => pyGet occ k == some 1)
  else 0

/-- The grading of one light in _control_traffic_lights: with a train at
or beyond the light, distance bands Red within LIGHT_DISTANCE_RED, Yellow
within LIGHT_DISTANCE_YELLOW, Green within LIGHT_DISTANCE_GREEN, Super
Green beyond; with none, the occupancy count ahead gives Red at two or
more, Yellow at exactly one, Super Green at zero. -/
def gradeLight (trains : List TrainInfo) (line : String) (lightBlock : ℤ)
    (occ : List ℤ) : LightState :=
  match minAheadDistance trains line lightBlock with
  | some d =>
    if d ≤ LIGHT_DISTANCE_RED then .red
    else if d ≤ LIGHT_DISTANCE_YELLOW then .yellow
    else if d ≤ LIGHT_DISTANCE_GREEN then .green
    else .superGreen
  | none =>
    let c := countOccupiedAhead occ lightBlock
    if 2 ≤ c then .red
    else if c = 1 then .yellow
    else .superGreen

/-- TrackControl._determine_green_switch_position, translated clause by
clause; every branch whose condition fails falls through to the default
position 0. -/
def determineGreenSwitchPosition (switchBlock : ℤ) (route : List ℤ)
    (currentBlock : ℤ) (destination : String) : ℤ :=
  if switchBlock = 13 then
    if route.any (fun b => decide (b < 13)) then 1 else 0
  else if switchBlock = 28 then
    if route.any (fun b => decide (b > 100)) then 1 else 0
  else if switchBlock = 57 then
    if destination == "Yard" ||
        (match route.getLast? with
         | some b => decide (b < 58)
         | none => false) then 1 else 0
  else if switchBlock = 63 then
    if currentBlock = 0 then 1 else 0
  else if switchBlock = 77 then
    if destination == "Poplar" || destination == "Castle Shannon" then 0 else 1
  else if switchBlock = 85 then
    if currentBlock = 100 ∨ 96 ≤ currentBlock then 1 else 0
  else 0

/-- TrackControl._determine_red_switch_position, translated clause by
clause. -/
def determineRedSwitchPosition (switchBlock : ℤ) (route : List ℤ)
    (currentBlock : ℤ) (destination : String) : ℤ :=
  if switchBlock = 9 then
    if destination == "Yard" ||
        (match route.getLast? with
         | some b => b == 0
         | none => false) then 1 else 0
  else if switchBlock = 16 then
    if currentBlock < 16 ∧ route ≠ [] ∧ route.headD 0 ≤ 16 then 1 else 0
  else if switchBlock = 27 then
    if route.any (fun b => decide (76 ≤ b)) then 1 else 0
  else if switchBlock = 33 ∨ switchBlock = 38 ∨ switchBlock = 44 ∨ switchBlock = 52 then
    if route.any (fun b => decide (66 ≤ b ∧ b ≤ 76)) then 1 else 0
  else 0

/-- Dispatcher for the per switch desired position, selecting the Green or
Red rule table as the source does inside the scan loop. -/
def desiredSwitchPosition (line : String) (switchBlock : ℤ)
    (info : TrainInfo) : ℤ :=
  if line = "Green" then
    determineGreenSwitchPosition switchBlock info.route info.current_block
      info.destination
  else
    determineRedSwitchPosition switchBlock info.route info.current_block
      info.destination

/-- Qualification test of _set_switches_for_approaching_trains for one
train and one switch block: the switch block lies on the expected path
strictly after the current block position, at path index distance at most
5; the result is that distance when the train qualifies. -/
def qualifyingDistance (switchBlock : ℤ) (info : TrainInfo) : Option ℕ :=
  if info.expected_path = [] ∨ switchBlock ∉ info.expected_path then none
  else
    let cidx : ℤ :=
      if info.current_block ∈ info.expected_path then
        ((info.expected_path.findIdx? (· == info.current_block)).getD 0 : ℤ)
      else -1
    let sidx : ℤ :=
      ((info.expected_path.findIdx? (· == switchBlock)).getD 0 : ℤ)
    if 0 ≤ cidx ∧ cidx < sidx then
      if sidx - cidx ≤ 5 then some (sidx - cidx).toNat else none
    else none

/-- One fold step of the closest train scan of
_set_switches_for_approaching_trains: the accumulated state is the closest
train id, its path distance (None standing for the initial infinity) and
the desired position computed for it; a later train replaces the state
only with a strictly smaller distance. -/
def switchScanStep (line : String) (switchBlock : ℤ)
    (st : Option ℕ × Option ℕ × ℤ) (p : ℕ × TrainInfo) :
    Option ℕ × Option ℕ × ℤ :=
  match qualifyingDistance switchBlock p.2 with
  | none => st
  | some d =>
    let better := match st.2.1 with
      | none => true
      | some m => decide (d < m)
    if better then (some p.1, some d, desiredSwitchPosition line switchBlock p.2)
    else st

/-- The closest train scan over the ordered registry (Python dict
iteration order is insertion order). -/
def switchScan (line : String) (switchBlock : ℤ)
    (trains : List (ℕ × TrainInfo)) : Option ℕ × Option ℕ × ℤ :=
  trains.foldl (switchScanStep line switchBlock) (none, none, 0)

/-- The new value of one switch under
_set_switches_for_approaching_trains: the Green line block 63 special case
forces position 1 when any train of the line sits on the yard block with
63 on its path; otherwise the closest qualifying train decides, the value
is written only when it differs, and with no qualifying train the switch
keeps its current value. -/
def setSwitchForBlock (line : String) (trains : List (ℕ × TrainInfo))
    (switchBlock : ℤ) (cur : ℤ) : ℤ :=
  if line = "Green" ∧ switchBlock = 63 then
    if trains.any (fun p =>
        p.2.current_block == 0 && !p.2.expected_path.isEmpty &&
          decide ((63 : ℤ) ∈ p.2.expected_path)) then 1 else cur
  else
    match switchScan line switchBlock trains with
    | (some _, _, desired) => if cur ≠ desired then desired else cur
    | (none, _, _) => cur

/-- Per block failure state as DynamicBlockManager stores it and
LineNetwork.write_failures_to_json serializes it: three independent bits
power, circuit, broken. -/
structure FailureBits where
  power : Bool
  circuit : Bool
  broken : Bool
deriving DecidableEq, Repr

/-- LineNetwork.write_failures_to_json: the published failures array holds
three consecutive entries per block in sorted block order: the power bit,
the circuit bit, the broken rail bit. -/
def writeFailuresArray (blocks : List FailureBits) : List ℤ :=
  (blocks.map (fun fb =>
    [if fb.power then (1 : ℤ) else 0,
     if fb.circuit then (1 : ℤ) else 0,
     if fb.broken then (1 : ℤ) else 0])).flatten

/-- The per train body of TrackControl._handle_failures_for_line: inspect
the next three expected path blocks, treating failures[block] as a scalar
entry indexed directly by the block number; stop the train on the first
nonzero entry, and on a clear window drop the failure flag, restoring the
scheduled speed only for an En Route train. -/
def handleFailuresForTrain (failures : List ℤ) (line : String)
    (info : TrainInfo) : TrainInfo :=
  if info.line ≠ line then info
  else if info.expected_path = [] ∨ info.current_block ∉ info.expected_path then
    info
  else
    let idx := (info.expected_path.findIdx? (· == info.current_block)).getD 0
    let blocksToCheck := (info.expected_path.drop (idx + 1)).take 3
    let detected := blocksToCheck.any (fun b =>
      decide (b < (failures.length : ℤ)) && !(pyGet failures b == some 0))
    if detected then
      if info.failure_stopped then info
      else { info with commanded_speed := 0, commanded_authority := 0,
                       failure_stopped := true }
    else
      if info.failure_stopped then
        let info1 := { info with failure_stopped := false }
        if info.state = "En Route" then
          { info1 with commanded_speed := info.scheduled_speed.getD 30 }
        else info1
      else info

/-- Acceleration constant accel = 1.64 ft per second squared. -/
def ACCEL : ℚ := 164 / 100

/-- Deceleration constant decel = 3.94 ft per second squared. -/
def DECEL : ℚ := 394 / 100

/-- Quadratic coefficient A = 1/(2 accel) + 1/(2 decel) of the cruise
speed computation in _handle_dispatching_state. -/
def QA : ℚ := 1 / (2 * ACCEL) + 1 / (2 * DECEL)

/-- Feet per second to miles per hour factor 0.681818. -/
def FPS_TO_MPH : ℚ := 681818 / 1000000

/-- The time budget of _handle_dispatching_state: arrival minus now in
seconds, with no further subtraction. -/
def timeAvailable (arrivalSecs nowSecs : ℚ) : ℚ := arrivalSecs - nowSecs

/-- Modelled from the claim wording: the time budget the claim prescribes,
arrival minus now minus the number of stops times the fixed dwell
seconds. -/
def claimTimeAvailable (arrivalSecs nowSecs : ℚ) (numStops : ℕ) : ℚ :=
  arrivalSecs - nowSecs - numStops * DWELL_TIME

/-- The cruise speed selection of _handle_dispatching_state, with the
value of discriminant ** 0.5 supplied as the argument sqrtDisc (the one
irrational step of the source); it is meaningful under the side conditions
0 ≤ sqrtDisc and sqrtDisc ^ 2 = discriminant.  A nonpositive time budget,
a negative discriminant, or a root converting to at most 0 or more than
100 mph all fall back to the default 30 mph. -/
def optimalSpeedFromRoot (timeAvail distFt sqrtDisc : ℚ) : ℚ :=
  if 0 < timeAvail then
    let B := -timeAvail
    let disc := B ^ 2 - 4 * QA * distFt
    if 0 ≤ disc then
      let vfps := (-B - sqrtDisc) / (2 * QA)
      let mph := vfps * FPS_TO_MPH
      if mph ≤ 0 ∨ 100 < mph then 30 else mph
    else 30
  else 30

/-- Shared state channel operations, abstracting the file system calls the
two modules perform on the snapshot files. -/
inductive ChannelOp
  | readSnapshot (path : String)
  | writeDirect (path : String)
  | replaceInto (src dst : String)
  | sleepMs (n : ℕ)
deriving DecidableEq, Repr

/-- Path of the shared track snapshot (self.track_io_file). -/
def trackIoFile : String := "track_io.json"

/-- Path of the train model snapshot (TRAIN_MODEL_JSON). -/
def trainModelFile : String := "track_model_Train_Model.json"

/-- TrackControl._read_track_io: a single open and parse attempt inside
try; any failure returns None with no retry and no delay. -/
def readTrackIo {α : Type} (parseOutcome : Except Unit α) : Option α :=
  match parseOutcome with
  | .ok d => some d
  | .error _ => none

/-- The operation trace of TrackControl._read_track_io: one read attempt. -/
def readTrackIoOps : List ChannelOp := [ChannelOp.readSnapshot trackIoFile]

/-- The operation trace of TrackControl._write_track_io: one direct write
of the target file, with no temporary file and no atomic replace. -/
def writeTrackIoOps : List ChannelOp := [ChannelOp.writeDirect trackIoFile]

/-- Retry bound max_retries = 3 of LineNetwork.write_to_train_model_json. -/
def WRITE_MAX_RETRIES : ℕ := 3

/-- Retry delay retry_delay = 0.05 s = 50 ms of the same loop. -/
def WRITE_RETRY_DELAY_MS : ℕ := 50

/-- The attempt loop of LineNetwork.write_to_train_model_json over the
sequence of parse outcomes successive read attempts would produce: a
decode failure with budget remaining sleeps 50 ms and retries; a failure
on the last attempt gives up with no write; a success writes the temporary
file and atomically replaces it onto the target.  The result is the
operation trace and whether the snapshot was written. -/
def writeTrainModelLoop {α : Type} : List (Except Unit α) → List ChannelOp × Bool
  | [] => ([], false)
  | o :: rest =>
    match o with
    | .ok _ =>
      ([ChannelOp.readSnapshot trainModelFile,
        ChannelOp.writeDirect (trainModelFile ++ ".tmp"),
        ChannelOp.replaceInto (trainModelFile ++ ".tmp") trainModelFile], true)
    | .error _ =>
      match rest with
      | [] => ([ChannelOp.readSnapshot trainModelFile], false)
      | r1 :: rs =>
        let r := writeTrainModelLoop (r1 :: rs)
        (ChannelOp.readSnapshot trainModelFile ::
          ChannelOp.sleepMs WRITE_RETRY_DELAY_MS :: r.1, r.2)

/-- LineNetwork.write_to_train_model_json consults at most
WRITE_MAX_RETRIES read outcomes. -/
def writeTrainModelJson {α : Type} (outcomes : List (Except Unit α)) :
    List ChannelOp × Bool :=
  writeTrainModelLoop (outcomes.take WRITE_MAX_RETRIES)

/-- Modelled from the claim wording: a reader that retries up to the bound
on decode failure and surfaces the first success. -/
def claimReadWithRetry {α : Type} (bound : ℕ) (outcomes : List (Except Unit α)) :
    Option α :=
  ((outcomes.take bound).find? (fun o => o.isOk)).bind fun o =>
    match o with
    | .ok d => some d
    | .error _ => none

/-- The guard of _automatic_control_cycle: the tick body runs only when
both snapshot reads produced data. -/
def controlCycleRuns {α β : Type} (trackData : Option α)
    (trackModel : Option β) : Bool :=
  trackData.isSome && trackModel.isSome

/-- The record _manual_dispatch creates for a train not yet registered:
a fresh train at the yard.  Keys the source does not create at this point
(expected_path, scheduled_speed, the stop flags) are their dict.get
defaults. -/
def newDispatchTrain (line dest arrival : String) (route : List ℤ) : TrainInfo :=
  { line := line,
    state := "Dispatching",
    current_block := 0,
    expected_path := [],
    commanded_speed := 0,
    commanded_authority := 0,
    scheduled_speed := none,
    separation_stopped := false,
    failure_stopped := false,
    route := route,
    current_leg_index := 0,
    destination := dest,
    next_station_block := route.headD 0,
    current_station := "Yard",
    arrival_time := arrival,
    dwell_start_time := none,
    last_position_yds := 0 }

/-- A concrete static table for the Green line in which block 63 has no
record: blocks 64 and 65 are 100 m and 50 m long. -/
def c1LineData : List BlockInfo := [⟨64, 100⟩, ⟨65, 50⟩]

/-- A concrete dispatch leg path from the yard through blocks 63 and 64
to the station block 65. -/
def c1Path : List ℤ := [0, 63, 64, 65]

/-- A concrete arrived train at block 65 used to probe the redispatch
update. -/
def c9Old : TrainInfo :=
  { line := "Green",
    state := "Arrived",
    current_block := 65,
    expected_path := [63, 64, 65],
    commanded_speed := 0,
    commanded_authority := 0,
    scheduled_speed := some 40,
    separation_stopped := false,
    failure_stopped := false,
    route := [65],
    current_leg_index := 0,
    destination := "Glenbury",
    next_station_block := 65,
    current_station := "Glenbury",
    arrival_time := "10:00",
    dwell_start_time := none,
    last_position_yds := 0 }

/-- A concrete en route train at block 62 expecting blocks 63, 64, 65. -/
def c2Train : TrainInfo :=
  { line := "Green",
    state := "En Route",
    current_block := 62,
    expected_path := [62, 63, 64, 65],
    commanded_speed := 30,
    commanded_authority := 437,
    scheduled_speed := some 30,
    separation_stopped := false,
    failure_stopped := false,
    route := [65],
    current_leg_index := 0,
    destination := "Glenbury",
    next_station_block := 65,
    current_station := "Yard",
    arrival_time := "10:00",
    dwell_start_time := none,
    last_position_yds := 0 }

/-- A concrete second train of the same line occupying block 63. -/
def c2Other : TrainInfo :=
  { c2Train with current_block := 63, expected_path := [63, 64, 65], route := [65] }

/-- The first train after a separation stop. -/
def c2TrainStopped : TrainInfo :=
  { c2Train with commanded_speed := 0, commanded_authority := 0,
                 separation_stopped := true }

/-- Occupancy with block 63 occupied (array index 62), 70 blocks long. -/
def c2Occ : List ℤ := List.replicate 62 0 ++ 1 :: List.replicate 7 0

/-- Occupancy with every block clear. -/
def c2OccClear : List ℤ := List.replicate 70 0

/-- The leg path from block 62 to the station block 65. -/
def c2Path : List ℤ := [62, 63, 64, 65]

/-- Static lengths of 100 m for blocks 62 through 65. -/
def c2LineData : List BlockInfo := [⟨62, 100⟩, ⟨63, 100⟩, ⟨64, 100⟩, ⟨65, 100⟩]

/-- A Green line probe train standing at a given block, for the gate and
light scans (which consult only the line and the current block). -/
def c3TrainAt (b : ℤ) : TrainInfo :=
  { c2Train with current_block := b, expected_path := [] }

/-- Six ticks, one second apart, with a train sitting on gate block 19. -/
def c3StepsPresence : List (ℚ × List TrainInfo) :=
  [(0, [c3TrainAt 19]), (1, [c3TrainAt 19]), (2, [c3TrainAt 19]),
   (3, [c3TrainAt 19]), (4, [c3TrainAt 19]), (5, [c3TrainAt 19])]

/-- The same six ticks followed by a seventh at time 6 on which the train
has moved far beyond the gate (block 40). -/
def c3Steps : List (ℚ × List TrainInfo) :=
  c3StepsPresence ++ [(6, [c3TrainAt 40])]

/-- A train three path blocks short of switch 77 heading for the Poplar
spur (switch 77 rule: position 0). -/
def c6Train3 : TrainInfo :=
  { c2Train with
    current_block := 74,
    expected_path := [74, 75, 76, 77, 78],
    route := [88],
    destination := "Poplar" }

/-- A train also three path blocks short of switch 77 but heading for the
main loop (switch 77 rule: position 1). -/
def c6Train5 : TrainInfo :=
  { c2Train with
    current_block := 70,
    expected_path := [70, 71, 72, 77, 101],
    route := [105],
    destination := "Mt Lebanon" }

/-- A train five path blocks short of switch 77, heading for the main
loop: a qualifying but farther train, used ahead of the closest one in
registry order. -/
def c6TrainFar : TrainInfo :=
  { c2Train with
    current_block := 72,
    expected_path := [72, 73, 74, 75, 76, 77],
    route := [105],
    destination := "Mt Lebanon" }

/-- Occupancy with block index 19 occupied, for the light fallback
grading. -/
def c7Occ : List ℤ := List.replicate 19 0 ++ 1 :: List.replicate 2 0

/-- Per block failure bits for ten blocks, with a power failure on the
fifth block (sorted position 4) and everything else clear. -/
def c8Bits : List FailureBits :=
  [⟨false, false, false⟩, ⟨false, false, false⟩, ⟨false, false, false⟩,
   ⟨false, false, false⟩, ⟨true, false, false⟩, ⟨false, false, false⟩,
   ⟨false, false, false⟩, ⟨false, false, false⟩, ⟨false, false, false⟩,
   ⟨false, false, false⟩]

/-- A running train at block 3 whose next three path blocks are 4, 5, 6. -/
def c8Train : TrainInfo :=
  { c2Train with current_block := 3, expected_path := [3, 4, 5, 6, 7] }

/-! Helper lemmas shared by the claim theorems. -/

theorem pyInt_nonneg {q : ℚ} (h : 0 ≤ q) : 0 ≤ pyInt q := by
  unfold pyInt
  rw [if_neg (not_lt.mpr h)]
  exact Int.floor_nonneg.mpr h

theorem pyInt_eq_of_bounds {q : ℚ} {z : ℤ} (h0 : 0 ≤ q) (h1 : (z : ℚ) ≤ q)
    (h2 : q < z + 1) : pyInt q = z := by
  unfold pyInt
  rw [if_neg (not_lt.mpr h0)]
  exact Int.floor_eq_iff.mpr ⟨h1, by exact_mod_cast h2⟩

theorem lookupBlockLength_nonneg (lineData : List BlockInfo) (b : ℤ)
    (h : ∀ bi ∈ lineData, 0 ≤ bi.blockLength) :
    0 ≤ lookupBlockLength lineData b := by
  unfold lookupBlockLength
  cases hf : lineData.find? (fun bi => bi.blockNumber == b) with
  | none => exact le_refl 0
  | some bi => exact h bi (List.mem_of_find?_eq_some hf)

theorem sumLens_nonneg (lineData : List BlockInfo) (blocks : List ℤ)
    (h : ∀ bi ∈ lineData, 0 ≤ bi.blockLength) :
    0 ≤ sumLens lineData blocks := by
  unfold sumLens
  refine List.sum_nonneg ?_
  intro x hx
  obtain ⟨b, _, rfl⟩ := List.mem_map.mp hx
  exact lookupBlockLength_nonneg lineData b h

theorem M_TO_YD_nonneg : (0 : ℚ) ≤ M_TO_YD := by norm_num [M_TO_YD]

/-- C1.  The claim fails on the code: with the static table present but
lacking any record for block 63, which lies on the leg path, the dispatch
is not refused; the authority is computed with the missing block
contributing zero length (200 yard base, 100 m of block 64 converted,
10 yard buffer, truncated to 319 yards).  The claim demands refusal
whenever any block length on the path is unavailable. -/
theorem C1_counterexample :
    (c1LineData.find? (fun bi => bi.blockNumber == (63 : ℤ))) = none ∧
    (63 : ℤ) ∈ (c1Path.drop 1).dropLast ∧
    dispatchAuthority (some c1LineData) c1Path = some 319 := by
  refine ⟨by decide, by decide, ?_⟩
  have hf63 : c1LineData.find? (fun bi => bi.blockNumber == (63 : ℤ)) = none := by
    decide
  have hf64 : c1LineData.find? (fun bi => bi.blockNumber == (64 : ℤ)) =
      some ⟨64, 100⟩ := by decide
  have hdrop : (c1Path.drop 1).dropLast = [63, 64] := by decide
  have hsum : sumLens c1LineData ((c1Path.drop 1).dropLast) = 100 := by
    rw [hdrop]
    simp only [sumLens, List.map, List.sum_cons, List.sum_nil, lookupBlockLength,
      hf63, hf64]
    norm_num
  show some (pyInt (200 + (sumLens c1LineData ((c1Path.drop 1).dropLast) * M_TO_YD + 10)))
    = some 319
  rw [hsum]
  congr 1
  refine pyInt_eq_of_bounds (by norm_num [M_TO_YD]) (by norm_num [M_TO_YD])
    (by norm_num [M_TO_YD])

/-- C1 (amended).  Commanded authority is nonnegative when every recorded
block length is nonnegative; dispatch authority equals the truncated yard
conversion of the meter sum over the path interior (the starting and
destination entries excluded) plus the 200 yard base and the 10 yard
buffer; the dwell resume authority adds the 200 yard base only when
resuming from the yard block and sums from the current block through the
leg destination inclusive, with no buffer; both computations are refused
exactly when the whole static table is unavailable or the path is empty,
while a path block missing from the table merely contributes zero
length. -/
theorem C1_authority_amended (ld : List BlockInfo) (path : List ℤ) (cb : ℤ)
    (hpos : ∀ bi ∈ ld, 0 ≤ bi.blockLength) (hpath : path ≠ []) :
    (∃ a, dispatchAuthority (some ld) path = some a ∧ 0 ≤ a ∧
      a = pyInt (200 + (sumLens ld ((path.drop 1).dropLast) * M_TO_YD + 10))) ∧
    (∃ r, dwellResumeAuthority (some ld) path cb = some r ∧ 0 ≤ r ∧
      r = (if cb = 0 then (200 : ℚ) else 0) +
        ((pyInt (sumLens ld
          (path.drop ((path.findIdx? (· == cb)).getD 0)) * M_TO_YD) : ℤ) : ℚ)) ∧
    dispatchAuthority none path = none ∧
    dwellResumeAuthority none path cb = none := by
  have hsum1 : 0 ≤ sumLens ld ((path.drop 1).dropLast) * M_TO_YD :=
    mul_nonneg (sumLens_nonneg ld _ hpos) M_TO_YD_nonneg
  have hsum2 : 0 ≤ sumLens ld (path.drop ((path.findIdx? (· == cb)).getD 0)) * M_TO_YD :=
    mul_nonneg (sumLens_nonneg ld _ hpos) M_TO_YD_nonneg
  refine ⟨⟨_, ?_, ?_, rfl⟩, ⟨_, ?_, ?_, rfl⟩, rfl, rfl⟩
  · simp [dispatchAuthority, hpath]
  · exact pyInt_nonneg (by linarith)
  · simp [dwellResumeAuthority, hpath]
  · have h2 : (0 : ℚ) ≤ ((pyInt (sumLens ld
        (path.drop ((path.findIdx? (· == cb)).getD 0)) * M_TO_YD) : ℤ) : ℚ) := by
      exact_mod_cast pyInt_nonneg hsum2
    by_cases hcb : cb = 0
    · subst hcb
      rw [if_pos rfl]
      linarith
    · rw [if_neg hcb]
      linarith

/-- C1 witness: the amended authority theorem evaluated on the concrete
static table and path of the counterexample scenario, resuming from the
yard block. -/
theorem C1_authority_amended_witness :
    (∃ a, dispatchAuthority (some c1LineData) c1Path = some a ∧ 0 ≤ a ∧
      a = pyInt (200 + (sumLens c1LineData ((c1Path.drop 1).dropLast) * M_TO_YD + 10))) ∧
    (∃ r, dwellResumeAuthority (some c1LineData) c1Path 0 = some r ∧ 0 ≤ r ∧
      r = (if (0 : ℤ) = 0 then (200 : ℚ) else 0) +
        ((pyInt (sumLens c1LineData
          (c1Path.drop ((c1Path.findIdx? (· == (0 : ℤ))).getD 0)) * M_TO_YD) : ℤ) : ℚ)) ∧
    dispatchAuthority none c1Path = none ∧
    dwellResumeAuthority none c1Path 0 = none :=
  C1_authority_amended c1LineData c1Path 0 (by decide) (by decide)

/-- C9.  The claim fails on the code: redispatching the registered train
standing at block 65 resets its current_block to 0 (the source assigns 0
unconditionally), while its current_station does persist.  The claim
asserts the position persists unchanged. -/
theorem C9_counterexample :
    c9Old.current_block = 65 ∧
    (redispatchUpdate c9Old "Green" "Dormont" "11:00" [73]).current_block = 0 ∧
    (redispatchUpdate c9Old "Green" "Dormont" "11:00" [73]).current_station =
      c9Old.current_station := by
  refine ⟨rfl, rfl, rfl⟩

/-- C9 (amended).  Redispatching an existing train reseeds destination,
route, state, arrival time, commanded speed and authority, and resets
current_block to the yard block 0; only the station history
(current_station), the leg index (current_leg_index), the previous
expected path and the stop flags persist unchanged. -/
theorem C9_redispatch_amended (old : TrainInfo) (line dest arrival : String)
    (route : List ℤ) :
    (redispatchUpdate old line dest arrival route).current_station = old.current_station ∧
    (redispatchUpdate old line dest arrival route).current_leg_index = old.current_leg_index ∧
    (redispatchUpdate old line dest arrival route).expected_path = old.expected_path ∧
    (redispatchUpdate old line dest arrival route).separation_stopped = old.separation_stopped ∧
    (redispatchUpdate old line dest arrival route).current_block = 0 ∧
    (redispatchUpdate old line dest arrival route).state = "Dispatching" ∧
    (redispatchUpdate old line dest arrival route).destination = dest ∧
    (redispatchUpdate old line dest arrival route).route = route ∧
    (redispatchUpdate old line dest arrival route).arrival_time = arrival ∧
    (redispatchUpdate old line dest arrival route).commanded_speed = 0 ∧
    (redispatchUpdate old line dest arrival route).commanded_authority = 0 ∧
    (redispatchUpdate old line dest arrival route).dwell_start_time = none := by
  refine ⟨rfl, rfl, rfl, rfl, rfl, rfl, rfl, rfl, rfl, rfl, rfl, rfl⟩

theorem sepResumeUpdate_not_stopped (info : TrainInfo)
    (staticData : Option (List BlockInfo)) (calcPath : ℤ → ℤ → List ℤ)
    (hflag : info.separation_stopped = false) :
    sepResumeUpdate info staticData calcPath = info := by
  rw [sepResumeUpdate, hflag]
  simp

/-- C10.  The separation check reports a violation only when one of the
next two path blocks is both marked occupied and recorded as the current
block of a different registered train of the same line; when no checked
block has such a matching train (in particular when a block is occupied
but matches no registry entry) and the train was not already held, the
check leaves the train record untouched and reports no violation. -/
theorem C10_separation_needs_tracked_train (selfId : ℕ) (info : TrainInfo)
    (line : String) (occ : List ℤ) (activeTrains : List (ℕ × TrainInfo))
    (staticData : Option (List BlockInfo)) (calcPath : ℤ → ℤ → List ℤ) :
    ((checkTrainSeparation selfId info line occ activeTrains staticData calcPath).2 = true →
      ∃ b ∈ sepBlocksToCheck info,
        sepOccupied occ b = true ∧ otherTrainAt activeTrains selfId line b = true) ∧
    ((∀ b ∈ sepBlocksToCheck info,
        ¬(sepOccupied occ b = true ∧ otherTrainAt activeTrains selfId line b = true)) →
      info.separation_stopped = false →
      checkTrainSeparation selfId info line occ activeTrains staticData calcPath =
        (info, false)) := by
  by_cases hg : info.expected_path = [] ∨ info.current_block ∉ info.expected_path
  · constructor
    · intro h
      rw [checkTrainSeparation, if_pos hg] at h
      exact absurd h (by simp)
    · intro _ _
      rw [checkTrainSeparation, if_pos hg]
  · rw [checkTrainSeparation, if_neg hg]
    cases hfind : (sepBlocksToCheck info).find?
        (fun b => sepOccupied occ b && otherTrainAt activeTrains selfId line b) with
    | some b =>
      constructor
      · intro _
        have hmem := List.mem_of_find?_eq_some hfind
        have hpred := List.find?_some hfind
        rw [Bool.and_eq_true] at hpred
        exact ⟨b, hmem, hpred.1, hpred.2⟩
      · intro hclear _
        have hpred := List.find?_some hfind
        rw [Bool.and_eq_true] at hpred
        exact absurd ⟨hpred.1, hpred.2⟩ (hclear b (List.mem_of_find?_eq_some hfind))
    | none =>
      constructor
      · intro h
        exact absurd h (by simp)
      · intro _ hflag
        rw [sepResumeUpdate_not_stopped info staticData calcPath hflag]

/-- C10 witness: with block 63 occupied and the registry containing both
trains, the check reports a violation and the matching block exists; with
the registry reduced to the train itself the same occupied block matches
no other train and the check leaves the train untouched. -/
theorem C10_witness :
    (∃ b ∈ sepBlocksToCheck c2Train, sepOccupied c2Occ b = true ∧
      otherTrainAt [(1, c2Train), (2, c2Other)] 1 "Green" b = true) ∧
    checkTrainSeparation 1 c2Train "Green" c2Occ [(1, c2Train)]
      (some c2LineData) (fun _ _ => c2Path) = (c2Train, false) :=
  ⟨(C10_separation_needs_tracked_train 1 c2Train "Green" c2Occ
      [(1, c2Train), (2, c2Other)] (some c2LineData) (fun _ _ => c2Path)).1
      (by decide),
   (C10_separation_needs_tracked_train 1 c2Train "Green" c2Occ
      [(1, c2Train)] (some c2LineData) (fun _ _ => c2Path)).2
      (by decide) (by decide)⟩

/-- C2.  Separation enforcement: a train not yet held whose next two path
blocks include one that is occupied and recorded as another same line
train's current block is stopped (speed and authority zeroed, flag set,
violation reported); a held En Route train whose two block window is clear
resumes: the flag drops, the commanded speed returns to the scheduled
speed, and the authority is recomputed as the truncated yard conversion of
the static length sum along the recomputed path from the current block
through the next station of the route. -/
theorem C2_separation_stop_and_resume (selfId : ℕ) (info : TrainInfo)
    (line : String) (occ : List ℤ) (activeTrains : List (ℕ × TrainInfo))
    (ld : List BlockInfo) (calcPath : ℤ → ℤ → List ℤ) :
    (info.separation_stopped = false →
      (∃ b ∈ sepBlocksToCheck info, sepOccupied occ b = true ∧
        otherTrainAt activeTrains selfId line b = true) →
      checkTrainSeparation selfId info line occ activeTrains (some ld) calcPath =
        ({ info with commanded_speed := 0, commanded_authority := 0,
                     separation_stopped := true }, true)) ∧
    (info.separation_stopped = true →
      (∀ b ∈ sepBlocksToCheck info, ¬(sepOccupied occ b = true ∧
        otherTrainAt activeTrains selfId line b = true)) →
      info.expected_path ≠ [] → info.current_block ∈ info.expected_path →
      info.state = "En Route" →
      info.route ≠ [] → info.current_leg_index < info.route.length →
      calcPath info.current_block (info.route.getD info.current_leg_index 0) ≠ [] →
      checkTrainSeparation selfId info line occ activeTrains (some ld) calcPath =
        ({ info with separation_stopped := false,
                     commanded_speed := info.scheduled_speed.getD 30,
                     commanded_authority := ((pyInt (sumLens ld
                       ((calcPath info.current_block
                           (info.route.getD info.current_leg_index 0)).drop
                         (((calcPath info.current_block
                             (info.route.getD info.current_leg_index 0)).findIdx?
                           (· == info.current_block)).getD 0)) * M_TO_YD) : ℤ) : ℚ) },
         false)) := by
  constructor
  · intro hflag hviol
    obtain ⟨b, hbmem, hocc, hoth⟩ := hviol
    have hg : ¬(info.expected_path = [] ∨ info.current_block ∉ info.expected_path) := by
      intro hgg
      rw [sepBlocksToCheck, if_pos hgg] at hbmem
      exact absurd hbmem (List.not_mem_nil b)
    rw [checkTrainSeparation, if_neg hg]
    have hsome : ((sepBlocksToCheck info).find? (fun b =>
        sepOccupied occ b && otherTrainAt activeTrains selfId line b)).isSome := by
      rw [List.find?_isSome]
      exact ⟨b, hbmem, by simp [hocc, hoth]⟩
    cases hfind : (sepBlocksToCheck info).find? (fun b =>
        sepOccupied occ b && otherTrainAt activeTrains selfId line b) with
    | some c => rw [hflag]; simp
    | none => rw [hfind] at hsome; exact absurd hsome (by simp)
  · intro hss hclear hne hmem hst hrne hleg hcp
    have hg : ¬(info.expected_path = [] ∨ info.current_block ∉ info.expected_path) := by
      push_neg
      exact ⟨hne, hmem⟩
    rw [checkTrainSeparation, if_neg hg]
    have hnone : (sepBlocksToCheck info).find? (fun b =>
        sepOccupied occ b && otherTrainAt activeTrains selfId line b) = none := by
      rw [List.find?_eq_none]
      intro b hb
      intro hpred
      rw [Bool.and_eq_true] at hpred
      exact hclear b hb ⟨hpred.1, hpred.2⟩
    rw [hnone]
    rw [sepResumeUpdate, hss]
    simp only [if_true, hst, ite_true]
    rw [if_pos ⟨hrne, hleg⟩]
    simp only [hcp, ite_true, if_pos hcp]

/-- C2 witness: the stop half evaluated with block 63 occupied by the
second train, and the resume half evaluated with the occupancy cleared for
the previously held train. -/
theorem C2_witness :
    checkTrainSeparation 1 c2Train "Green" c2Occ [(1, c2Train), (2, c2Other)]
      (some c2LineData) (fun _ _ => c2Path) =
      ({ c2Train with commanded_speed := 0, commanded_authority := 0,
                      separation_stopped := true }, true) ∧
    checkTrainSeparation 1 c2TrainStopped "Green" c2OccClear
      [(1, c2TrainStopped), (2, c2Other)] (some c2LineData) (fun _ _ => c2Path) =
      ({ c2TrainStopped with
          separation_stopped := false,
          commanded_speed := c2TrainStopped.scheduled_speed.getD 30,
          commanded_authority := ((pyInt (sumLens c2LineData
            (c2Path.drop ((c2Path.findIdx?
              (· == c2TrainStopped.current_block)).getD 0)) * M_TO_YD) : ℤ) : ℚ) },
       false) :=
  ⟨(C2_separation_stop_and_resume 1 c2Train "Green" c2Occ
      [(1, c2Train), (2, c2Other)] c2LineData (fun _ _ => c2Path)).1
      (by decide) (by decide),
   (C2_separation_stop_and_resume 1 c2TrainStopped "Green" c2OccClear
      [(1, c2TrainStopped), (2, c2Other)] c2LineData (fun _ _ => c2Path)).2
      (by decide) (by decide) (by decide) (by decide) (by decide) (by decide)
      (by decide) (by decide)⟩

theorem gateRun_cons (line : String) (g : ℤ) (a : ℚ × List TrainInfo)
    (rest : List (ℚ × List TrainInfo)) (init : ℤ × Option ℚ) :
    gateRun line g (a :: rest) init =
      gateRun line g rest (controlCrossingGate a.2 line g init.2 a.1 init.1) := rfl

theorem gateRun_nil (line : String) (g : ℤ) (init : ℤ × Option ℚ) :
    gateRun line g [] init = init := rfl

/-- C3.  The claim fails on the code: a train occupies gate block 19 from
time 0 through time 5 and is gone at time 6; the gate closes at time 0
with the timer recording time 0 (the first presence, never refreshed), and
at time 6 the gate is already open again, although only one second, less
than the three second open delay, has passed since the last qualifying
presence at time 5.  The claim requires the delay to be measured from the
last qualifying presence. -/
theorem C3_counterexample :
    gateRun "Green" 19 c3StepsPresence (1, none) = (0, some 0) ∧
    gateRun "Green" 19 c3Steps (1, none) = (1, none) ∧
    (6 : ℚ) - 5 < GATE_OPEN_DELAY ∧
    ¬(|(19 : ℤ) - (c3TrainAt 40).current_block| ≤ GATE_CLOSE_DISTANCE) := by
  have h0 : ∀ now : ℚ, ∀ timer : Option ℚ, ∀ old : ℤ,
      controlCrossingGate [c3TrainAt 19] "Green" 19 timer now old =
        (0, some (timer.getD now)) := by
    intro now timer old
    simp [controlCrossingGate, c3TrainAt, c2Train]
  have h6 : controlCrossingGate [c3TrainAt 40] "Green" 19 (some 0) 6 0 = (1, none) := by
    simp only [controlCrossingGate, c3TrainAt, c2Train]
    norm_num [GATE_CLOSE_DISTANCE, GATE_OPEN_DELAY]
  refine ⟨?_, ?_, by norm_num [GATE_OPEN_DELAY], by norm_num [c3TrainAt, c2Train, GATE_CLOSE_DISTANCE]⟩
  · rw [c3StepsPresence]
    rw [gateRun_cons, gateRun_cons, gateRun_cons, gateRun_cons, gateRun_cons,
      gateRun_cons, gateRun_nil]
    simp only [h0, Option.getD]
  · rw [c3Steps, c3StepsPresence]
    simp only [List.cons_append, List.nil_append]
    rw [gateRun_cons, gateRun_cons, gateRun_cons, gateRun_cons, gateRun_cons,
      gateRun_cons, gateRun_cons, gateRun_nil]
    simp only [h0, Option.getD]
    exact h6

/-- C3 (amended).  A gate closes on the same tick any same line train is
on the gate block or within the close distance, and the timer is created
at the first such tick of the episode and kept unchanged while trains
remain; once no qualifying train is present, the gate stays as it was
until GATE_OPEN_DELAY seconds have elapsed since that first recorded
presence (not since the last one), then opens and clears the timer; with
no timer recorded it opens at once. -/
theorem C3_gate_amended (trains : List TrainInfo) (line : String)
    (gateBlock : ℤ) (timer : Option ℚ) (now : ℚ) (oldGate : ℤ) :
    ((∃ t ∈ trains, t.line = line ∧
        |gateBlock - t.current_block| ≤ GATE_CLOSE_DISTANCE) →
      controlCrossingGate trains line gateBlock timer now oldGate =
        (0, some (timer.getD now))) ∧
    ((∀ t ∈ trains, t.line = line →
        GATE_CLOSE_DISTANCE < |gateBlock - t.current_block|) →
      (∀ t0, timer = some t0 → now - t0 < GATE_OPEN_DELAY →
        controlCrossingGate trains line gateBlock timer now oldGate =
          (oldGate, some t0)) ∧
      (∀ t0, timer = some t0 → GATE_OPEN_DELAY ≤ now - t0 →
        controlCrossingGate trains line gateBlock timer now oldGate =
          (1, none)) ∧
      (timer = none →
        controlCrossingGate trains line gateBlock timer now oldGate =
          (1, none))) := by
  constructor
  · intro hpres
    obtain ⟨t, ht, hline, hd⟩ := hpres
    have hor : (trains.any (fun t =>
        t.line == line && t.current_block == gateBlock) ||
      trains.any (fun t =>
        t.line == line && t.current_block != gateBlock &&
          decide (|gateBlock - t.current_block| ≤ GATE_CLOSE_DISTANCE))) = true := by
      by_cases hcb : t.current_block = gateBlock
      · have hA : trains.any (fun t =>
            t.line == line && t.current_block == gateBlock) = true :=
          List.any_eq_true.mpr ⟨t, ht, by simp [hline, hcb]⟩
        rw [hA, Bool.true_or]
      · have hB : trains.any (fun t =>
            t.line == line && t.current_block != gateBlock &&
              decide (|gateBlock - t.current_block| ≤ GATE_CLOSE_DISTANCE)) = true :=
          List.any_eq_true.mpr ⟨t, ht, by simp [hline, hcb, hd]⟩
        rw [hB, Bool.or_true]
    simp only [controlCrossingGate, hor, if_true]
  · intro hfar
    have hat : trains.any (fun t =>
        t.line == line && t.current_block == gateBlock) = false := by
      rw [List.any_eq_false]
      intro t ht
      by_cases hline : t.line = line
      · have := hfar t ht hline
        have hcb : t.current_block ≠ gateBlock := by
          intro hcb
          rw [hcb] at this
          simp [GATE_CLOSE_DISTANCE] at this
        simp [hline, hcb]
      · simp [hline]
    have happ : trains.any (fun t =>
        t.line == line && t.current_block != gateBlock &&
          decide (|gateBlock - t.current_block| ≤ GATE_CLOSE_DISTANCE)) = false := by
      rw [List.any_eq_false]
      intro t ht
      by_cases hline : t.line = line
      · have := hfar t ht hline
        simp [hline, not_le.mpr this]
      · simp [hline]
    refine ⟨?_, ?_, ?_⟩
    · intro t0 ht0 hlt
      subst ht0
      simp only [controlCrossingGate, hat, happ, Bool.or_self, Bool.false_eq_true,
        if_false, not_le.mpr hlt, ite_false, if_neg (not_le.mpr hlt)]
    · intro t0 ht0 hge
      subst ht0
      simp only [controlCrossingGate, hat, happ, Bool.or_self, Bool.false_eq_true,
        if_false, if_pos hge]
    · intro ht0
      subst ht0
      simp only [controlCrossingGate, hat, happ, Bool.or_self, Bool.false_eq_true,
        if_false]

/-- C3 witness: the amended gate behaviour evaluated concretely: a train
on the gate block closes the gate and starts the timer at the current
time; with the train far away and the timer at 0, time 2 keeps the gate
closed, time 6 opens it and clears the timer. -/
theorem C3_gate_amended_witness :
    controlCrossingGate [c3TrainAt 19] "Green" 19 none 0 1 =
      (0, some ((none : Option ℚ).getD 0)) ∧
    controlCrossingGate [c3TrainAt 40] "Green" 19 (some 0) 2 0 = (0, some 0) ∧
    controlCrossingGate [c3TrainAt 40] "Green" 19 (some 0) 6 0 = (1, none) :=
  ⟨(C3_gate_amended [c3TrainAt 19] "Green" 19 none 0 1).1
      ⟨c3TrainAt 19, by simp, by simp [c3TrainAt, c2Train], by norm_num [c3TrainAt, c2Train, GATE_CLOSE_DISTANCE]⟩,
   ((C3_gate_amended [c3TrainAt 40] "Green" 19 (some 0) 2 0).2
      (by intro t ht hline; simp [c3TrainAt, c2Train] at ht; subst ht; norm_num [c3TrainAt, c2Train, GATE_CLOSE_DISTANCE])).1
      0 rfl (by norm_num [GATE_OPEN_DELAY]),
   ((C3_gate_amended [c3TrainAt 40] "Green" 19 (some 0) 6 0).2
      (by intro t ht hline; simp [c3TrainAt, c2Train] at ht; subst ht; norm_num [c3TrainAt, c2Train, GATE_CLOSE_DISTANCE])).2.1
      0 rfl (by norm_num [GATE_OPEN_DELAY])⟩

theorem quadRootEval (A T D s : ℚ) (hA : 0 < A) (hsq : s ^ 2 = T ^ 2 - 4 * A * D) :
    A * ((T - s) / (2 * A)) ^ 2 + (-T) * ((T - s) / (2 * A)) + D = 0 := by
  have h4A : (4 * A) ≠ 0 := by positivity
  have key : (4 * A) * (A * ((T - s) / (2 * A)) ^ 2 +
      (-T) * ((T - s) / (2 * A)) + D) = s ^ 2 - (T ^ 2 - 4 * A * D) := by
    field_simp
    ring
  have h0 : (4 * A) * (A * ((T - s) / (2 * A)) ^ 2 +
      (-T) * ((T - s) / (2 * A)) + D) = 0 := by
    rw [key, hsq]
    ring
  exact (mul_eq_zero.mp h0).resolve_left h4A

theorem quadSmallerRoot (A T D s w : ℚ) (hA : 0 < A) (hs : 0 ≤ s)
    (hsq : s ^ 2 = T ^ 2 - 4 * A * D)
    (hw : A * w ^ 2 + (-T) * w + D = 0) : (T - s) / (2 * A) ≤ w := by
  have h4A : (4 * A ^ 2) ≠ 0 := by positivity
  have hTs : T ^ 2 - s ^ 2 = 4 * A * D := by linarith
  have key : (4 * A ^ 2) * ((w - (T - s) / (2 * A)) * (w - (T + s) / (2 * A))) =
      4 * A ^ 2 * w ^ 2 - 4 * A * T * w + (T ^ 2 - s ^ 2) := by
    field_simp
    ring
  have h0 : (4 * A ^ 2) * ((w - (T - s) / (2 * A)) * (w - (T + s) / (2 * A))) = 0 := by
    rw [key, hTs]
    linear_combination 4 * A * hw
  have hprod := (mul_eq_zero.mp h0).resolve_left h4A
  rcases mul_eq_zero.mp hprod with h3 | h4
  · have hweq : w = (T - s) / (2 * A) := by
      have := sub_eq_zero.mp h3
      linarith
    linarith
  · have hweq : w = (T + s) / (2 * A) := by
      have := sub_eq_zero.mp h4
      linarith
    rw [hweq]
    exact (div_le_div_iff_of_pos_right (by positivity)).mpr (by linarith)

/-- C4.  The claim fails on the code: with arrival minus now equal to 100
seconds, one intermediate stop, and a route of 516928/93 feet, the code
computes the root from the full 100 second budget (no dwell subtraction)
and commands about 63 mph, while the budget the claim prescribes
(100 - 1 stop times 10 s dwell = 90 s) has a negative discriminant, for
which the claim mandates the fixed 30 mph fallback. -/
theorem C4_counterexample :
    optimalSpeedFromRoot (timeAvailable 100 0) (516928 / 93) 20 ≠ 30 ∧
    (20 : ℚ) ^ 2 = (timeAvailable 100 0) ^ 2 - 4 * QA * (516928 / 93) ∧
    (0 : ℚ) ≤ 20 ∧
    claimTimeAvailable 100 0 1 ^ 2 - 4 * QA * (516928 / 93) < 0 := by
  refine ⟨?_, by norm_num [timeAvailable, QA, ACCEL, DECEL],
    by norm_num,
    by norm_num [claimTimeAvailable, QA, ACCEL, DECEL, DWELL_TIME]⟩
  norm_num [optimalSpeedFromRoot, timeAvailable, QA, ACCEL, DECEL, FPS_TO_MPH]

/-- C4 (amended).  With the time budget T taken as arrival minus now (no
dwell subtraction) and sqrtDisc a correct square root of the discriminant,
the selected speed is always positive, and it is either the 30 mph
fallback or, converted back to feet per second, the smaller root of the
quadratic QA v squared minus T v plus D. -/
theorem C4_speed_amended (T D s : ℚ) (hs : 0 ≤ s)
    (hsq : s ^ 2 = T ^ 2 - 4 * QA * D) :
    0 < optimalSpeedFromRoot T D s ∧
    (optimalSpeedFromRoot T D s = 30 ∨
      (QA * (optimalSpeedFromRoot T D s / FPS_TO_MPH) ^ 2 +
          (-T) * (optimalSpeedFromRoot T D s / FPS_TO_MPH) + D = 0 ∧
        ∀ w : ℚ, QA * w ^ 2 + (-T) * w + D = 0 →
          optimalSpeedFromRoot T D s / FPS_TO_MPH ≤ w)) := by
  have hQA : (0 : ℚ) < QA := by norm_num [QA, ACCEL, DECEL]
  have hFPS : (0 : ℚ) < FPS_TO_MPH := by norm_num [FPS_TO_MPH]
  by_cases hT : 0 < T
  · have hdisc : 0 ≤ (-T) ^ 2 - 4 * QA * D := by nlinarith [sq_nonneg s]
    by_cases hbad : ((-(-T) - s) / (2 * QA)) * FPS_TO_MPH ≤ 0 ∨
        100 < ((-(-T) - s) / (2 * QA)) * FPS_TO_MPH
    · have hval : optimalSpeedFromRoot T D s = 30 := by
        simp only [optimalSpeedFromRoot]
        rw [if_pos hT, if_pos hdisc, if_pos hbad]
      rw [hval]
      exact ⟨by norm_num, Or.inl rfl⟩
    · have hval : optimalSpeedFromRoot T D s =
          ((-(-T) - s) / (2 * QA)) * FPS_TO_MPH := by
        simp only [optimalSpeedFromRoot]
        rw [if_pos hT, if_pos hdisc, if_neg hbad]
      push_neg at hbad
      constructor
      · rw [hval]
        exact hbad.1
      · right
        have hv : optimalSpeedFromRoot T D s / FPS_TO_MPH = (T - s) / (2 * QA) := by
          rw [hval, mul_div_assoc, div_self (ne_of_gt hFPS), mul_one]
          ring_nf
        rw [hv]
        exact ⟨quadRootEval QA T D s hQA hsq,
          fun w hw => quadSmallerRoot QA T D s w hQA hs hsq hw⟩
  · have hval : optimalSpeedFromRoot T D s = 30 := by
      simp only [optimalSpeedFromRoot]
      rw [if_neg hT]
    rw [hval]
    exact ⟨by norm_num, Or.inl rfl⟩

/-- C4 witness: the amended speed theorem evaluated at the concrete budget
of 100 seconds, distance 516928/93 ft and exact square root 20. -/
theorem C4_speed_amended_witness :
    0 < optimalSpeedFromRoot 100 (516928 / 93) 20 ∧
    (optimalSpeedFromRoot 100 (516928 / 93) 20 = 30 ∨
      (QA * (optimalSpeedFromRoot 100 (516928 / 93) 20 / FPS_TO_MPH) ^ 2 +
          (-(100 : ℚ)) * (optimalSpeedFromRoot 100 (516928 / 93) 20 / FPS_TO_MPH) +
          516928 / 93 = 0 ∧
        ∀ w : ℚ, QA * w ^ 2 + (-(100 : ℚ)) * w + 516928 / 93 = 0 →
          optimalSpeedFromRoot 100 (516928 / 93) 20 / FPS_TO_MPH ≤ w)) :=
  C4_speed_amended 100 (516928 / 93) 20 (by norm_num)
    (by norm_num [QA, ACCEL, DECEL])

theorem switchScan_append_none (line : String) (sb : ℤ)
    (pre rest : List (ℕ × TrainInfo)) (st : Option ℕ × Option ℕ × ℤ)
    (hpre : ∀ q ∈ pre, qualifyingDistance sb q.2 = none) :
    (pre ++ rest).foldl (switchScanStep line sb) st =
      rest.foldl (switchScanStep line sb) st := by
  induction pre generalizing st with
  | nil => simp
  | cons p ps ih =>
    simp only [List.cons_append, List.foldl_cons]
    have hstep : switchScanStep line sb st p = st := by
      rw [switchScanStep, hpre p (List.mem_cons_self p ps)]
    rw [hstep]
    exact ih st (fun q hq => hpre q (List.mem_cons_of_mem p hq))

theorem switchScan_post_ge (line : String) (sb : ℤ)
    (post : List (ℕ × TrainInfo)) (i : ℕ) (m : ℕ) (pos : ℤ)
    (hpost : ∀ q ∈ post, ∀ dq, qualifyingDistance sb q.2 = some dq → m ≤ dq) :
    post.foldl (switchScanStep line sb) (some i, some m, pos) =
      (some i, some m, pos) := by
  induction post with
  | nil => simp
  | cons q qs ih =>
    simp only [List.foldl_cons]
    have hstep : switchScanStep line sb (some i, some m, pos) q =
        (some i, some m, pos) := by
      rw [switchScanStep]
      cases hq : qualifyingDistance sb q.2 with
      | none => rfl
      | some dq =>
        have hle := hpost q (List.mem_cons_self q qs) dq hq
        simp [Nat.not_lt.mpr hle]
    rw [hstep]
    exact ih (fun q hq dq h => hpost q (List.mem_cons_of_mem _ hq) dq h)

theorem switchScan_pre_invariant (line : String) (sb : ℤ) (d : ℕ) :
    ∀ (pre : List (ℕ × TrainInfo)) (st : Option ℕ × Option ℕ × ℤ),
    (st.2.1 = none ∨ ∃ m, st.2.1 = some m ∧ d < m) →
    (∀ q ∈ pre, ∀ dq, qualifyingDistance sb q.2 = some dq → d < dq) →
    ((pre.foldl (switchScanStep line sb) st).2.1 = none ∨
      ∃ m, (pre.foldl (switchScanStep line sb) st).2.1 = some m ∧ d < m) := by
  intro pre
  induction pre with
  | nil =>
    intro st hst _
    simpa using hst
  | cons q qs ih =>
    intro st hst hall
    rw [List.foldl_cons]
    refine ih (switchScanStep line sb st q) ?_
      (fun r hr dr h => hall r (List.mem_cons_of_mem _ hr) dr h)
    rw [switchScanStep]
    cases hq : qualifyingDistance sb q.2 with
    | none => exact hst
    | some dq =>
      have hdq := hall q (List.mem_cons_self q qs) dq hq
      rcases hst with h | ⟨m, hm, hdm⟩
      · rw [h]
        refine Or.inr ⟨dq, ?_, hdq⟩
        simp
      · rw [hm]
        by_cases hlt : dq < m
        · refine Or.inr ⟨dq, ?_, hdq⟩
          simp [hlt]
        · refine Or.inr ⟨m, ?_, hdm⟩
          simp only [decide_eq_true_eq, if_neg hlt]
          exact hm

/-- C6 (amended).  For a switch other than the Green line yard exit 63:
with no qualifying train the switch keeps its value; with qualifying
trains, the winner is the FIRST train in registry (insertion) order that
attains the minimal qualifying path distance - every earlier iterated
qualifying train is strictly farther, every later one at least as far -
so equal distances are resolved by registry order, not by smaller train
id, and the switch is written only when it differs from the winner's
required position. -/
theorem C6_switch_amended (line : String) (switchBlock cur : ℤ)
    (trains pre post : List (ℕ × TrainInfo)) (p : ℕ × TrainInfo) (d : ℕ)
    (hns : ¬(line = "Green" ∧ switchBlock = 63)) :
    ((∀ q ∈ trains, qualifyingDistance switchBlock q.2 = none) →
      setSwitchForBlock line trains switchBlock cur = cur) ∧
    (trains = pre ++ p :: post →
      qualifyingDistance switchBlock p.2 = some d →
      (∀ q ∈ pre, ∀ dq, qualifyingDistance switchBlock q.2 = some dq → d < dq) →
      (∀ q ∈ post, ∀ dq, qualifyingDistance switchBlock q.2 = some dq → d ≤ dq) →
      setSwitchForBlock line trains switchBlock cur =
        (if cur ≠ desiredSwitchPosition line switchBlock p.2
         then desiredSwitchPosition line switchBlock p.2 else cur)) := by
  constructor
  · intro hnoq
    simp only [setSwitchForBlock]
    rw [if_neg hns]
    have hscan : switchScan line switchBlock trains = (none, none, 0) := by
      rw [switchScan]
      have h := switchScan_append_none line switchBlock trains []
        (none, none, 0) hnoq
      simpa using h
    rw [hscan]
  · intro htr hq hpre hpost
    subst htr
    simp only [setSwitchForBlock]
    rw [if_neg hns]
    have h1 : switchScan line switchBlock (pre ++ p :: post) =
        (some p.1, some d, desiredSwitchPosition line switchBlock p.2) := by
      rw [switchScan, List.foldl_append, List.foldl_cons]
      have hinv := switchScan_pre_invariant line switchBlock d pre
        (none, none, 0) (Or.inl rfl) hpre
      have hstep : switchScanStep line switchBlock
          (pre.foldl (switchScanStep line switchBlock) (none, none, 0)) p =
          (some p.1, some d, desiredSwitchPosition line switchBlock p.2) := by
        rw [switchScanStep, hq]
        rcases hinv with h | ⟨m, hm, hdm⟩
        · rw [h]
          simp
        · rw [hm]
          simp [hdm]
      rw [hstep]
      exact switchScan_post_ge line switchBlock post p.1 d _ hpost
    rw [h1]

/-- C6.  The claim fails on the code: trains 5 and 3 both qualify for
switch 77 at the same path distance 3 but require opposite positions;
with train 5 dispatched first (and therefore iterated first in the
registry), the switch is set to train 5's position 1, while the claimed
smaller-id tie break demands train 3's position 0. -/
theorem C6_counterexample :
    setSwitchForBlock "Green" [(5, c6Train5), (3, c6Train3)] 77 0 = 1 ∧
    qualifyingDistance 77 c6Train5 = some 3 ∧
    qualifyingDistance 77 c6Train3 = some 3 ∧
    desiredSwitchPosition "Green" 77 c6Train3 = 0 ∧
    desiredSwitchPosition "Green" 77 c6Train5 = 1 ∧
    (3 : ℕ) < 5 := by
  decide

/-- C6 witness: the amended switch theorem evaluated concretely: a list
whose only train has no path leaves switch 77 alone; the two train tie at
distance 3 resolves to the first listed train (train 5), writing its
required position 1; and with a farther qualifying train (distance 5)
iterated before the closest one (distance 3), the closest train wins and
its position 0 is written over the current value 1. -/
theorem C6_witness :
    setSwitchForBlock "Green" [(7, c3TrainAt 10)] 77 0 = 0 ∧
    setSwitchForBlock "Green" [(5, c6Train5), (3, c6Train3)] 77 0 =
      (if (0 : ℤ) ≠ desiredSwitchPosition "Green" 77 c6Train5
       then desiredSwitchPosition "Green" 77 c6Train5 else 0) ∧
    setSwitchForBlock "Green" [(9, c6TrainFar), (3, c6Train3)] 77 1 =
      (if (1 : ℤ) ≠ desiredSwitchPosition "Green" 77 c6Train3
       then desiredSwitchPosition "Green" 77 c6Train3 else 1) :=
  ⟨(C6_switch_amended "Green" 77 0 [(7, c3TrainAt 10)] [] []
      (7, c3TrainAt 10) 0 (by decide)).1 (by decide),
   (C6_switch_amended "Green" 77 0 [(5, c6Train5), (3, c6Train3)] []
      [(3, c6Train3)] (5, c6Train5) 3 (by decide)).2 rfl (by decide)
      (by decide) (by decide),
   (C6_switch_amended "Green" 77 1 [(9, c6TrainFar), (3, c6Train3)]
      [(9, c6TrainFar)] [] (3, c6Train3) 3 (by decide)).2 rfl (by decide)
      (by decide) (by decide)⟩

theorem minAheadFold_spec (line : String) (lb : ℤ) (l : List TrainInfo) :
    ∀ acc : Option ℤ,
    (l.foldl (minAheadStep line lb) acc = none →
      acc = none ∧ ∀ t ∈ l, t.line = line → t.current_block - lb < 0) ∧
    (∀ d, l.foldl (minAheadStep line lb) acc = some d →
      ((acc = some d) ∨ (∃ t ∈ l, t.line = line ∧ t.current_block - lb = d ∧ 0 ≤ d)) ∧
      (∀ m, acc = some m → d ≤ m) ∧
      (∀ t ∈ l, t.line = line → 0 ≤ t.current_block - lb → d ≤ t.current_block - lb)) := by
  induction l with
  | nil =>
    intro acc
    refine ⟨fun h => ⟨by simpa using h, by simp⟩, fun d h => ?_⟩
    refine ⟨Or.inl (by simpa using h), fun m hm => ?_, by simp⟩
    have : d = m := by
      rw [List.foldl_nil] at h
      rw [h] at hm
      exact (Option.some_inj.mp hm)
    omega
  | cons t ts ih =>
    intro acc
    have hfold : (t :: ts).foldl (minAheadStep line lb) acc =
        ts.foldl (minAheadStep line lb) (minAheadStep line lb acc t) := rfl
    by_cases hline : t.line = line
    · by_cases hd : 0 ≤ t.current_block - lb
      · -- qualifying train
        cases acc with
        | none =>
          have hstep : minAheadStep line lb none t = some (t.current_block - lb) := by
            simp [minAheadStep, hline, hd]
          constructor
          · intro h
            rw [hfold, hstep] at h
            have := ((ih (some (t.current_block - lb))).2 (t.current_block - lb))
            exfalso
            rcases hres : ts.foldl (minAheadStep line lb) (some (t.current_block - lb)) with _ | dd
            · have h2 := (ih (some (t.current_block - lb))).1 hres
              exact absurd h2.1 (by simp)
            · rw [hres] at h
              exact absurd h (by simp)
          · intro d h
            rw [hfold, hstep] at h
            obtain ⟨hex, hacc, hmin⟩ := (ih (some (t.current_block - lb))).2 d h
            have hdle : d ≤ t.current_block - lb := hacc _ rfl
            refine ⟨?_, by simp, ?_⟩
            · rcases hex with hx | hx
              · have hxx := Option.some_inj.mp hx
                exact Or.inr ⟨t, List.mem_cons_self t ts, hline, hxx, by omega⟩
              · obtain ⟨u, hu, h1, h2, h3⟩ := hx
                exact Or.inr ⟨u, List.mem_cons_of_mem t hu, h1, h2, h3⟩
            · intro u hu h1 h2
              rcases List.mem_cons.mp hu with rfl | hu2
              · exact hdle
              · exact hmin u hu2 h1 h2
        | some m0 =>
          by_cases hlt : t.current_block - lb < m0
          · have hstep : minAheadStep line lb (some m0) t = some (t.current_block - lb) := by
              simp [minAheadStep, hline, hd, hlt]
            constructor
            · intro h
              rw [hfold, hstep] at h
              rcases hres : ts.foldl (minAheadStep line lb) (some (t.current_block - lb)) with _ | dd
              · have h2 := (ih (some (t.current_block - lb))).1 hres
                exact absurd h2.1 (by simp)
              · rw [hres] at h
                exact absurd h (by simp)
            · intro d h
              rw [hfold, hstep] at h
              obtain ⟨hex, hacc, hmin⟩ := (ih (some (t.current_block - lb))).2 d h
              have hdle : d ≤ t.current_block - lb := hacc _ rfl
              refine ⟨?_, ?_, ?_⟩
              · rcases hex with hx | hx
                · have hxx := Option.some_inj.mp hx
                  exact Or.inr ⟨t, List.mem_cons_self t ts, hline, hxx, by omega⟩
                · obtain ⟨u, hu, h1, h2, h3⟩ := hx
                  exact Or.inr ⟨u, List.mem_cons_of_mem t hu, h1, h2, h3⟩
              · intro m hm
                have hmm := Option.some_inj.mp hm
                omega
              · intro u hu h1 h2
                rcases List.mem_cons.mp hu with rfl | hu2
                · exact hdle
                · exact hmin u hu2 h1 h2
          · have hstep : minAheadStep line lb (some m0) t = some m0 := by
              simp [minAheadStep, hline, hd, hlt]
            constructor
            · intro h
              rw [hfold, hstep] at h
              rcases hres : ts.foldl (minAheadStep line lb) (some m0) with _ | dd
              · have h2 := (ih (some m0)).1 hres
                exact absurd h2.1 (by simp)
              · rw [hres] at h
                exact absurd h (by simp)
            · intro d h
              rw [hfold, hstep] at h
              obtain ⟨hex, hacc, hmin⟩ := (ih (some m0)).2 d h
              have hdm0 : d ≤ m0 := hacc _ rfl
              refine ⟨?_, ?_, ?_⟩
              · rcases hex with hx | hx
                · exact Or.inl hx
                · obtain ⟨u, hu, h1, h2, h3⟩ := hx
                  exact Or.inr ⟨u, List.mem_cons_of_mem t hu, h1, h2, h3⟩
              · intro m hm
                have hmm := Option.some_inj.mp hm
                omega
              · intro u hu h1 h2
                rcases List.mem_cons.mp hu with rfl | hu2
                · omega
                · exact hmin u hu2 h1 h2
      · -- same line, behind the light
        have hstep : minAheadStep line lb acc t = acc := by
          simp [minAheadStep, hline, hd]
        constructor
        · intro h
          rw [hfold, hstep] at h
          obtain ⟨h1, h2⟩ := (ih acc).1 h
          refine ⟨h1, ?_⟩
          intro u hu hul
          rcases List.mem_cons.mp hu with rfl | hu2
          · omega
          · exact h2 u hu2 hul
        · intro d h
          rw [hfold, hstep] at h
          obtain ⟨hex, hacc, hmin⟩ := (ih acc).2 d h
          refine ⟨?_, hacc, ?_⟩
          · rcases hex with hx | hx
            · exact Or.inl hx
            · obtain ⟨u, hu, h1, h2, h3⟩ := hx
              exact Or.inr ⟨u, List.mem_cons_of_mem t hu, h1, h2, h3⟩
          · intro u hu h1 h2
            rcases List.mem_cons.mp hu with rfl | hu2
            · omega
            · exact hmin u hu2 h1 h2
    · -- different line
      have hstep : minAheadStep line lb acc t = acc := by
        simp [minAheadStep, hline]
      constructor
      · intro h
        rw [hfold, hstep] at h
        obtain ⟨h1, h2⟩ := (ih acc).1 h
        refine ⟨h1, ?_⟩
        intro u hu hul
        rcases List.mem_cons.mp hu with rfl | hu2
        · exact absurd hul hline
        · exact h2 u hu2 hul
      · intro d h
        rw [hfold, hstep] at h
        obtain ⟨hex, hacc, hmin⟩ := (ih acc).2 d h
        refine ⟨?_, hacc, ?_⟩
        · rcases hex with hx | hx
          · exact Or.inl hx
          · obtain ⟨u, hu, h1, h2, h3⟩ := hx
            exact Or.inr ⟨u, List.mem_cons_of_mem t hu, h1, h2, h3⟩
        · intro u hu h1 h2
          rcases List.mem_cons.mp hu with rfl | hu2
          · exact absurd h1 hline
          · exact hmin u hu2 h1 h2

/-- C7.  Signal grading: when the closest train search yields a distance
d, d is the least nonnegative raw block distance of any same line train
at or beyond the light and the light grades Red within
LIGHT_DISTANCE_RED, Yellow within LIGHT_DISTANCE_YELLOW, Green within
LIGHT_DISTANCE_GREEN, Super Green beyond, the inner band winning; when
the search yields nothing (every same line train is strictly behind the
light), the occupied count over the next three entries grades Red at two
or more, Yellow at exactly one, Super Green at zero. -/
theorem C7_light_grading (trains : List TrainInfo) (line : String)
    (lightBlock : ℤ) (occ : List ℤ) :
    (∀ d, minAheadDistance trains line lightBlock = some d →
      (0 ≤ d ∧
       (∃ t ∈ trains, t.line = line ∧ t.current_block - lightBlock = d) ∧
       (∀ t ∈ trains, t.line = line → 0 ≤ t.current_block - lightBlock →
         d ≤ t.current_block - lightBlock)) ∧
      gradeLight trains line lightBlock occ =
        (if d ≤ LIGHT_DISTANCE_RED then LightState.red
         else if d ≤ LIGHT_DISTANCE_YELLOW then LightState.yellow
         else if d ≤ LIGHT_DISTANCE_GREEN then LightState.green
         else LightState.superGreen)) ∧
    (minAheadDistance trains line lightBlock = none →
      (∀ t ∈ trains, t.line = line → t.current_block < lightBlock) ∧
      gradeLight trains line lightBlock occ =
        (if 2 ≤ countOccupiedAhead occ lightBlock then LightState.red
         else if countOccupiedAhead occ lightBlock = 1 then LightState.yellow
         else LightState.superGreen)) := by
  constructor
  · intro d h
    have hf : trains.foldl (minAheadStep line lightBlock) none = some d := by
      rw [minAheadDistance] at h
      exact h
    obtain ⟨hex, _, hmin⟩ := (minAheadFold_spec line lightBlock trains none).2 d hf
    have hex2 : ∃ t ∈ trains, t.line = line ∧ t.current_block - lightBlock = d ∧ 0 ≤ d := by
      rcases hex with hx | hx
      · exact absurd hx (by simp)
      · exact hx
    obtain ⟨t, ht, h1, h2, h3⟩ := hex2
    refine ⟨⟨h3, ⟨t, ht, h1, h2⟩, hmin⟩, ?_⟩
    simp only [gradeLight]
    rw [h]
  · intro h
    have hf : trains.foldl (minAheadStep line lightBlock) none = none := by
      rw [minAheadDistance] at h
      exact h
    obtain ⟨_, hneg⟩ := (minAheadFold_spec line lightBlock trains none).1 hf
    refine ⟨fun t ht hl => by have := hneg t ht hl; omega, ?_⟩
    simp only [gradeLight]
    rw [h]

/-- C7 witness: a train two blocks past the light grades Yellow via the
distance bands, and with no train at or beyond the light one occupied
block ahead grades Yellow via the fallback count. -/
theorem C7_witness :
    ((0 ≤ (2 : ℤ) ∧
      (∃ t ∈ [c3TrainAt 20], t.line = "Green" ∧ t.current_block - 18 = 2) ∧
      (∀ t ∈ [c3TrainAt 20], t.line = "Green" → 0 ≤ t.current_block - 18 →
        (2 : ℤ) ≤ t.current_block - 18)) ∧
     gradeLight [c3TrainAt 20] "Green" 18 [] =
       (if (2 : ℤ) ≤ LIGHT_DISTANCE_RED then LightState.red
        else if (2 : ℤ) ≤ LIGHT_DISTANCE_YELLOW then LightState.yellow
        else if (2 : ℤ) ≤ LIGHT_DISTANCE_GREEN then LightState.green
        else LightState.superGreen)) ∧
    ((∀ t ∈ [c3TrainAt 10], t.line = "Green" → t.current_block < 18) ∧
     gradeLight [c3TrainAt 10] "Green" 18 c7Occ =
       (if 2 ≤ countOccupiedAhead c7Occ 18 then LightState.red
        else if countOccupiedAhead c7Occ 18 = 1 then LightState.yellow
        else LightState.superGreen)) :=
  ⟨(C7_light_grading [c3TrainAt 20] "Green" 18 []).1 2 (by decide),
   (C7_light_grading [c3TrainAt 10] "Green" 18 c7Occ).2 (by decide)⟩

/-- C8.  The published encoding (section 6 of the specification, produced
by LineNetwork.write_failures_to_json) stores three entries per block, so
the power failure of block 5 sets flat index 12 = 3 * (5 - 1); the
consumer _handle_failures_for_line instead reads failures[block], one
entry per block number.  With block 5 failed and two blocks ahead of the
train inside its three block window, the consumer sees only zeros at
indices 4, 5 and 6 and leaves the train running at full speed, where the
claim requires commanded speed and authority to drop to 0 and
failure_stopped to be set. -/
theorem C8_failure_encoding_bug :
    pyGet (writeFailuresArray c8Bits) (3 * (5 - 1)) = some 1 ∧
    (5 : ℤ) ∈ (c8Train.expected_path.drop 1).take 3 ∧
    handleFailuresForTrain (writeFailuresArray c8Bits) "Green" c8Train = c8Train ∧
    c8Train.commanded_speed = 30 ∧
    c8Train.failure_stopped = false := by
  decide

theorem writeTrainModelLoop_no_direct {α : Type} :
    ∀ outcomes : List (Except Unit α),
      ChannelOp.writeDirect trainModelFile ∉ (writeTrainModelLoop outcomes).1 := by
  intro outcomes
  induction outcomes with
  | nil => simp [writeTrainModelLoop]
  | cons o rest ih =>
    cases o with
    | ok v =>
      simp only [writeTrainModelLoop, List.mem_cons]
      rintro (h | h | h | h)
      · exact absurd h (by simp)
      · exact absurd h (by decide)
      · exact absurd h (by simp)
      · exact absurd h (List.not_mem_nil _)
    | error e =>
      cases rest with
      | nil =>
        simp [writeTrainModelLoop]
      | cons r1 rs =>
        simp only [writeTrainModelLoop, List.mem_cons]
        rintro (h | h | h)
        · exact absurd h (by simp)
        · exact absurd h (by simp)
        · exact absurd h ih

theorem writeTrainModelLoop_all_error {α : Type} :
    ∀ outcomes : List (Except Unit α),
      (∀ o ∈ outcomes, o = Except.error ()) →
      (writeTrainModelLoop outcomes).2 = false ∧
      (∀ p, ChannelOp.writeDirect p ∉ (writeTrainModelLoop outcomes).1) ∧
      (∀ p q, ChannelOp.replaceInto p q ∉ (writeTrainModelLoop outcomes).1) := by
  intro outcomes
  induction outcomes with
  | nil => intro _; refine ⟨rfl, by simp [writeTrainModelLoop], by simp [writeTrainModelLoop]⟩
  | cons o rest ih =>
    intro hall
    have ho : o = Except.error () := hall o (List.mem_cons_self o rest)
    subst ho
    cases rest with
    | nil =>
      refine ⟨rfl, ?_, ?_⟩
      · intro p
        simp [writeTrainModelLoop]
      · intro p q
        simp [writeTrainModelLoop]
    | cons r1 rs =>
      obtain ⟨h2, h3, h4⟩ := ih (fun o ho => hall o (List.mem_cons_of_mem _ ho))
      refine ⟨h2, ?_, ?_⟩
      · intro p
        simp only [writeTrainModelLoop, List.mem_cons]
        rintro (h | h | h)
        · exact absurd h (by simp)
        · exact absurd h (by simp)
        · exact absurd h (h3 p)
      · intro p q
        simp only [writeTrainModelLoop, List.mem_cons]
        rintro (h | h | h)
        · exact absurd h (by simp)
        · exact absurd h (by simp)
        · exact absurd h (h4 p q)

/-- C5 (amended).  Only LineNetwork.write_to_train_model_json has the
claimed behaviour: it never writes the target snapshot path directly (the
payload goes to the .tmp path and is installed by the atomic replace), a
run of three decode failures gives up having written nothing at all, and
a failure followed by a success retries after the 50 ms delay and then
performs the temporary write plus replace; and on the TrackControl side a
failed read makes the guard of _automatic_control_cycle skip the tick
body.  (The TrackControl reader itself performs a single attempt and its
writer writes the target directly; see the counterexample.) -/
theorem C5_channel_amended {α : Type} (outcomes : List (Except Unit α))
    (x : Option α) (d : α) :
    ChannelOp.writeDirect trainModelFile ∉ (writeTrainModelJson outcomes).1 ∧
    ((∀ o ∈ outcomes.take WRITE_MAX_RETRIES, o = Except.error ()) →
      (writeTrainModelJson outcomes).2 = false ∧
      ∀ p q, ChannelOp.replaceInto p q ∉ (writeTrainModelJson outcomes).1) ∧
    writeTrainModelJson [Except.error (), Except.ok d] =
      ([ChannelOp.readSnapshot trainModelFile,
        ChannelOp.sleepMs WRITE_RETRY_DELAY_MS,
        ChannelOp.readSnapshot trainModelFile,
        ChannelOp.writeDirect (trainModelFile ++ ".tmp"),
        ChannelOp.replaceInto (trainModelFile ++ ".tmp") trainModelFile], true) ∧
    controlCycleRuns (none : Option α) x = false := by
  refine ⟨writeTrainModelLoop_no_direct (outcomes.take WRITE_MAX_RETRIES), ?_, rfl, rfl⟩
  intro hall
  obtain ⟨h2, _, h4⟩ :=
    writeTrainModelLoop_all_error (outcomes.take WRITE_MAX_RETRIES) hall
  exact ⟨h2, h4⟩

/-- C5 witness: the amended channel theorem evaluated with three decode
failures over natural number snapshots. -/
theorem C5_channel_amended_witness :
    ChannelOp.writeDirect trainModelFile ∉
      (writeTrainModelJson [Except.error (), Except.error (),
        (Except.error () : Except Unit ℕ)]).1 ∧
    (writeTrainModelJson [Except.error (), Except.error (),
        (Except.error () : Except Unit ℕ)]).2 = false ∧
    (∀ p q, ChannelOp.replaceInto p q ∉
      (writeTrainModelJson [Except.error (), Except.error (),
        (Except.error () : Except Unit ℕ)]).1) ∧
    writeTrainModelJson [Except.error (), Except.ok (7 : ℕ)] =
      ([ChannelOp.readSnapshot trainModelFile,
        ChannelOp.sleepMs WRITE_RETRY_DELAY_MS,
        ChannelOp.readSnapshot trainModelFile,
        ChannelOp.writeDirect (trainModelFile ++ ".tmp"),
        ChannelOp.replaceInto (trainModelFile ++ ".tmp") trainModelFile], true) ∧
    controlCycleRuns (none : Option ℕ) (some 0) = false := by
  have h := C5_channel_amended [Except.error (), Except.error (),
    (Except.error () : Except Unit ℕ)] (some 0) 7
  have h2 := h.2.1 (by intro o ho; fin_cases ho <;> rfl)
  exact ⟨h.1, h2.1, h2.2, (C5_channel_amended [Except.error (), Except.ok (7 : ℕ)]
    (some 0) 7).2.2.1, h.2.2.2⟩

/-- C5.  The claim fails on the code: TrackControl._read_track_io makes a
single parse attempt (its trace is one read, no sleep, no retry) and
returns None on the first decode failure even when a retry would have
succeeded - the claimed retrying reader returns the value 7 on the same
outcome sequence - and TrackControl._write_track_io writes the snapshot
target path directly with no temporary file and no atomic replace. -/
theorem C5_counterexample :
    readTrackIo (Except.error () : Except Unit ℕ) = none ∧
    claimReadWithRetry 3 [Except.error (), Except.ok (7 : ℕ)] = some 7 ∧
    readTrackIoOps = [ChannelOp.readSnapshot trackIoFile] ∧
    writeTrackIoOps = [ChannelOp.writeDirect trackIoFile] := by
  refine ⟨rfl, by decide, rfl, rfl⟩
